import Mathlib

/-!
# A shallow embedding of `hashstructure` (openly-engineering/hashstructure)

This file embeds the Go package `hashstructure` (file `hashstructure.go`)
in Lean 4 and proves properties of the embedding.

Modelling conventions, fixed once here:

* The MD5 accumulator `w.h` is modelled as the list of bytes written to it,
  in order; a byte is a `Nat` (values are kept below 256 by the encoders).
  Finalisation (`w.h.Sum(nil)`) is an arbitrary function
  `D : List Nat → List Nat` over the written stream, a parameter of every
  definition: MD5 is one instance of `D`.  Equality of digests is proved for
  every `D`; distinctness of digests is exhibited at `D = id`, i.e. at the
  level of the byte stream fed to MD5.
* Go values are the inductive `GoVal`; Go types (needed for
  `reflect.Zero(t)`) are the inductive `GoTy`.  A Go map value is the list
  of its entries in iteration order; a permutation of the list is the same
  map iterated in another order.  Floating point, complex, uintptr, array,
  channel and `time.Time` values are omitted: no claim mentions them.
  `GoVal.vFunc` stands for a (non-nil) value of func kind, which the walker
  has no encoding for (`"unknown kind to hash"`).
* Go strings are modelled by their list of character code points
  (`strBytes`); for the ASCII names and inputs used here this is exactly
  the UTF-8 byte sequence Go writes, and it is injective in general.
* None of the modelled values implement the capability interfaces
  `Hashable`, `Includable`, `IncludableMap` or `fmt.Stringer`, and none
  belong to the special-cased `github.com/markphelps/optional` package:
  those branches of `visitStruct`/`visitMap` are therefore the identity
  (resp. the `ErrNotStringer` failure for an explicit `"string"` tag).
  Since `Hash` starts from `reflect.ValueOf(v)`, no value the walker
  reaches is addressable, so `CanSet`/`CanAddr` are `false` throughout.
* `sort.Slice` with `bytes.Compare(a, b) < 0` is modelled by insertion sort
  under the byte-lexicographic order `bytesLeProp`: the comparator is total
  and ties hold only between equal byte lists, so every sort produces the
  same output list.
-/

namespace Hashstructure

/-- Go struct tags, as a key/value association list
(`reflect.StructTag.Get` is `tagGet`). -/
abbrev Tags := List (String × String)

/-- The Go types the walker needs: they appear as pointer element types and
feed `reflect.Zero(t)` (hashstructure.go line 166).  A struct type carries
its name and its fields (name, tags, field type). -/
inductive GoTy where
  | tInt | tInt8 | tInt16 | tInt32 | tInt64
  | tUint | tUint8 | tUint16 | tUint32 | tUint64
  | tBool
  | tString
  | tPtr (elem : GoTy)
  | tSlice (elem : GoTy)
  | tMap (key : GoTy) (value : GoTy)
  | tStruct (name : String) (fields : List (String × Tags × GoTy))

/-- Go values.  `vPtr` keeps the pointed-to type (for `ZeroNil`) and the
pointee (`none` is a nil pointer); `vInterface none` is a nil interface.
`vMap` lists the entries in iteration order.  A struct value carries its
type name and its fields (name, tags, value).  `vFunc` is a non-nil value
of func kind, for which `visit` has no case. -/
inductive GoVal where
  | vInt (i : Int) | vInt8 (i : Int) | vInt16 (i : Int) | vInt32 (i : Int) | vInt64 (i : Int)
  | vUint (n : Nat) | vUint8 (n : Nat) | vUint16 (n : Nat) | vUint32 (n : Nat) | vUint64 (n : Nat)
  | vBool (b : Bool)
  | vString (s : String)
  | vPtr (elem : GoTy) (p : Option GoVal)
  | vInterface (p : Option GoVal)
  | vSlice (elems : List GoVal)
  | vMap (entries : List (GoVal × GoVal))
  | vStruct (name : String) (fields : List (String × Tags × GoVal))
  | vFunc

/-- The errors of the package (errors.go is not under src/; only the error
identities matter here).  `errFormat` is `ErrFormat`, `errNotStringer` is
`ErrNotStringer{Field: f}`, `unknownKind k` is the
`fmt.Errorf("unknown kind to hash: %s", k)` of visit's default case. -/
inductive Err where
  | errFormat
  | errNotStringer (field : String)
  | unknownKind (kind : String)
  deriving DecidableEq

/-- The options record `HashOptions` (hashstructure.go lines 15–38).  All fields default to
their Go zero values. -/
structure HashOptions where
  tagName : String := ""
  zeroNil : Bool := false
  ignoreZeroValue : Bool := false
  slicesAsSets : Bool := false
  useStringer : Bool := false
  deriving DecidableEq

/-- The tag name actually consulted: `opts.TagName`, defaulting to `"hash"`
(hashstructure.go lines 103–106). -/
def effTagName (opts : HashOptions) : String :=
  if opts.tagName = "" then "hash" else opts.tagName

/-- Go tag lookup `reflect.StructTag.Get`: first value under the key, `""` if absent. -/
def tagGet (key : String) : Tags → String
  | [] => ""
  | (k, v) :: rest => if k = key then v else tagGet key rest

/-- The bytes Go writes for a string (`w.h.Write([]byte(v.String()))`),
modelled as the character code points; equal to UTF-8 on the ASCII strings
used here, and injective in general. -/
def strBytes (s : String) : List Nat := s.data.map Char.toNat

/-- Little-endian encoding: `w` bytes of an unsigned value (as `binary.Write` with
`binary.LittleEndian` produces for the fixed-size unsigned types). -/
def uleBytes : Nat → Nat → List Nat
  | 0, _ => []
  | w + 1, n => (n % 256) :: uleBytes w (n / 256)

/-- Little-endian two's-complement encoding: `w` bytes of a signed value. -/
def sleBytes (w : Nat) (i : Int) : List Nat :=
  uleBytes w (i % ((2 : Int) ^ (8 * w))).toNat

/-- Byte-lexicographic order: `bytesLe a b = true` iff
`bytes.Compare(a, b) <= 0` (a strict prefix compares below). -/
def bytesLe : List Nat → List Nat → Bool
  | [], _ => true
  | _ :: _, [] => false
  | a :: as, b :: bs => if a < b then true else if b < a then false else bytesLe as bs

/-- The comparison `bytesLe` as a relation, for `List.insertionSort`. -/
def bytesLeProp (a b : List Nat) : Prop := bytesLe a b = true

instance : DecidableRel bytesLeProp := fun a b =>
  inferInstanceAs (Decidable (bytesLe a b = true))

/-- The `sort.Slice(hashes, func(i, j) { bytes.Compare(...) < 0 })` calls of
`visitMap` and `visitSlice`: the output list is the unique sorted
arrangement of the input, so insertion sort is extensionally the Go sort. -/
def sortHashes (l : List (List Nat)) : List (List Nat) :=
  List.insertionSort bytesLeProp l

/-- Concatenation of a list of hash values, as the successive
`w.h.Write(h)` calls produce. -/
def joinBytes : List (List Nat) → List Nat
  | [] => []
  | h :: t => h ++ joinBytes t

/-- Go formatting `fmt.Fprintf(w.h, "%d", h)` for `h : []byte`: Go renders a byte slice
under `%d` as the bracketed, space-separated decimal list, e.g. `[5 42]`. -/
def goFmtBytes (h : List Nat) : String :=
  "[" ++ String.intercalate " " (h.map Nat.repr) ++ "]"

/-- Go field visibility: a struct field is exported (reflect: empty
`PkgPath`) iff its name starts with an upper-case letter
(hashstructure.go lines 342–345). -/
def exportedName (n : String) : Bool := n.front.isUpper

mutual

/-- Go zeroing `reflect.Zero(t)`: the zero value of a Go type.  The zero slice and the
zero map are nil, i.e. empty; the zero pointer is nil. -/
def zeroVal : GoTy → GoVal
  | .tInt => .vInt 0 | .tInt8 => .vInt8 0 | .tInt16 => .vInt16 0
  | .tInt32 => .vInt32 0 | .tInt64 => .vInt64 0
  | .tUint => .vUint 0 | .tUint8 => .vUint8 0 | .tUint16 => .vUint16 0
  | .tUint32 => .vUint32 0 | .tUint64 => .vUint64 0
  | .tBool => .vBool false
  | .tString => .vString ""
  | .tPtr e => .vPtr e none
  | .tSlice _ => .vSlice []
  | .tMap _ _ => .vMap []
  | .tStruct n fs => .vStruct n (zeroFields fs)

/-- The zero values of a struct type's fields. -/
def zeroFields : List (String × Tags × GoTy) → List (String × Tags × GoVal)
  | [] => []
  | (n, tg, ty) :: rest => (n, tg, zeroVal ty) :: zeroFields rest

end

mutual

/-- Go zero test `reflect.Value.IsZero`, for the `IgnoreZeroValue` option
(hashstructure.go lines 353–357).  The model cannot distinguish a nil
slice/map from a non-nil empty one, so those count as zero; `vFunc` models
a non-nil func value, which is not zero. -/
def isZero : GoVal → Bool
  | .vInt i => i == 0 | .vInt8 i => i == 0 | .vInt16 i => i == 0
  | .vInt32 i => i == 0 | .vInt64 i => i == 0
  | .vUint n => n == 0 | .vUint8 n => n == 0 | .vUint16 n => n == 0
  | .vUint32 n => n == 0 | .vUint64 n => n == 0
  | .vBool b => !b
  | .vString s => s == ""
  | .vPtr _ p => p.isNone
  | .vInterface p => p.isNone
  | .vSlice l => l.isEmpty
  | .vMap l => l.isEmpty
  | .vStruct _ fs => isZeroFields fs
  | .vFunc => false

/-- A struct value is zero iff every field is. -/
def isZeroFields : List (String × Tags × GoVal) → Bool
  | [] => true
  | (_, _, v) :: rest => isZero v && isZeroFields rest

end

/-- The flag `visitFlagSet` (hashstructure.go line 454): `iota << 1` with `iota = 1`. -/
def visitFlagSet : Nat := 2

/-- The context `visitCtx` (hashstructure.go lines 127–134).  `Struct` (the enclosing
record value, kept only for the `IncludableMap` capability probe, which no
modelled type implements) is represented by the struct's type name. -/
structure VCtx where
  flags : Nat
  structName : String
  structField : String

/-- Whether the current context carries `visitFlagSet`
(hashstructure.go lines 413–416). -/
def setFlag : Option VCtx → Bool
  | none => false
  | some c => c.flags.land visitFlagSet != 0

/-- One iteration of the field loop of `(*walker) visitStruct`
(hashstructure.go lines 337–404), given the result `inner` of visiting the
field's value and the result `restRes` of walking the remaining fields.
In source order: skip a `"_"` field (the walker's values come from
`reflect.ValueOf`, hence are unaddressable and `CanSet` is false, line 339);
skip unexported fields (lines 342–345); skip on an `"ignore"`/`"-"` tag
(lines 347–351); skip a zero value under `IgnoreZeroValue` (lines 353–357);
fail with `ErrNotStringer` on an explicit `"string"` tag — no modelled type
implements `fmt.Stringer`, and `UseStringer` without the tag falls through
(lines 360–369); otherwise write the field name, the field's bytes, and
continue (aborting if the field visit failed).  The `Includable` probe
(lines 372–381) is skipped: no modelled type implements it. -/
def fieldStep (opts : HashOptions) (fname : String) (ftags : Tags)
    (fieldIsZero : Bool) (inner restRes : List Nat × Option Err) :
    List Nat × Option Err :=
  if fname = "_" then restRes
  else if !(exportedName fname) then restRes
  else if tagGet (effTagName opts) ftags = "ignore" ∨ tagGet (effTagName opts) ftags = "-" then
    restRes
  else if opts.ignoreZeroValue && fieldIsZero then restRes
  else if tagGet (effTagName opts) ftags = "string" then ([], some (.errNotStringer fname))
  else
    match inner with
    | (vb, some e) => (strBytes fname ++ vb, some e)
    | (vb, none) =>
      match restRes with
      | (rb, re) => (strBytes fname ++ vb ++ rb, re)

mutual

/-- Size of a type, the termination measure for lemmas proved by recursion
over `GoTy`. -/
def tySize : GoTy → Nat
  | .tStruct _ fs => 1 + tyFieldsSize fs
  | .tPtr e => 1 + tySize e
  | .tSlice e => 1 + tySize e
  | .tMap a b => 1 + tySize a + tySize b
  | _ => 1

/-- Size of a struct type's field list. -/
def tyFieldsSize : List (String × Tags × GoTy) → Nat
  | [] => 0
  | (_, _, ty) :: rest => 1 + tySize ty + tyFieldsSize rest

end

/-- A value that is nil at the end of a (possibly empty) chain of pointer
and interface wrappers: exactly the values the unwrap loop of `visit`
reduces to an invalid `reflect.Value`. -/
def isNilChain : GoVal → Bool
  | .vPtr _ none => true
  | .vPtr _ (some w) => isNilChain w
  | .vInterface none => true
  | .vInterface (some w) => isNilChain w
  | _ => false

mutual

/-- The traversal of `reflect.Zero(t)` — the value `visit` substitutes for
a nil pointer/interface chain (hashstructure.go lines 165–167) — computed
by recursion on the type `t`.  Each case is the kind dispatch of `visit`
(lines 171–231) applied to `zeroVal t`:
* numeric/bool zeros are binary-written at their (widened) width;
* a zero string writes nothing;
* a zero pointer has pointer kind, which the dispatch has no case for:
  `"unknown kind to hash: ptr"` (line 229);
* zero slices and maps are empty, so both branches of `visitSlice` and the
  sort-and-write of `visitMap` write nothing and succeed;
* a zero struct writes its type name and then walks its (zero) fields.
The lemma `visit_zeroVal` below proves this agrees with `visit` on
`zeroVal t`. -/
def visitZeroDispatch (opts : HashOptions) : GoTy → List Nat × Option Err
  | .tInt => (sleBytes 8 0, none)
  | .tInt8 => (sleBytes 1 0, none)
  | .tInt16 => (sleBytes 2 0, none)
  | .tInt32 => (sleBytes 4 0, none)
  | .tInt64 => (sleBytes 8 0, none)
  | .tUint => (uleBytes 8 0, none)
  | .tUint8 => (uleBytes 1 0, none)
  | .tUint16 => (uleBytes 2 0, none)
  | .tUint32 => (uleBytes 4 0, none)
  | .tUint64 => (uleBytes 8 0, none)
  | .tBool => (sleBytes 1 0, none)
  | .tString => ([], none)
  | .tPtr _ => ([], some (.unknownKind "ptr"))
  | .tSlice _ => ([], none)
  | .tMap _ _ => ([], none)
  | .tStruct n fs =>
    match visitZeroFlds opts n fs with
    | (b, e) => (strBytes n ++ b, e)

/-- The field walk of `visitStruct` (hashstructure.go lines 337–404)
specialised to a zero struct value: every field value is the zero value of
its declared type, so `IsZero` is true and a pointer-typed field is a nil
pointer (one unwrap step, then zero substitution at the element type when
`ZeroNil` is set, at `int` otherwise). -/
def visitZeroFlds (opts : HashOptions) (sname : String) :
    List (String × Tags × GoTy) → List Nat × Option Err
  | [] => ([], none)
  | (fname, ftags, fty) :: rest =>
    fieldStep opts fname ftags true
      (match fty with
        | .tPtr u =>
          if opts.zeroNil then visitZeroDispatch opts u else (sleBytes 8 0, none)
        | t => visitZeroDispatch opts t)
      (visitZeroFlds opts sname rest)

end

/-- The inner result a zero struct field contributes, as a named function
(the inline match of `visitZeroFlds`): a pointer-typed field of a zero
struct is a nil pointer — one unwrap step updating `t` to the element type
when `ZeroNil` is set (to `int`, whose zero writes eight zero bytes,
otherwise) — and any other field is the zero value of its type, traversed
by `visitZeroDispatch`. -/
def zeroFieldInner (opts : HashOptions) : GoTy → List Nat × Option Err
  | .tPtr u => if opts.zeroNil then visitZeroDispatch opts u else (sleBytes 8 0, none)
  | t => visitZeroDispatch opts t

mutual

/-- The visitor `(*walker) visit` (hashstructure.go lines 139–232), returning the bytes
this call writes to `w.h` and the error, if any (on an error, the bytes
written before the abort).  `D` is the digest finalisation used by the
fresh sub-walkers (`hashValue`) of the map and set-slice branches.

The unwrap loop (lines 144–162) is fused into the match: `t` is the loop's
local `t`, initialised to `reflect.TypeOf(0)` — i.e. `GoTy.tInt` — by every
caller, updated to the pointer's element type when `ZeroNil` is set
(lines 153–157); an exhausted chain (nil at the innermost layer) is an
invalid `reflect.Value`, replaced by `reflect.Zero(t)` (lines 165–167)
whose traversal is `visitZeroDispatch`.

The numeric kinds are binary-written little endian (lines 187–190) after
the widening of lines 171–182: `int → int64`, `uint → uint64`,
`bool → int8`; the sized kinds keep their declared width.  Strings are
written raw (lines 223–226).  A func value reaches the default case
(line 229). -/
def visit (D : List Nat → List Nat) (opts : HashOptions) (t : GoTy) :
    GoVal → Option VCtx → List Nat × Option Err
  | .vInterface none, _ => visitZeroDispatch opts t
  | .vInterface (some w), ctx => visit D opts t w ctx
  | .vPtr e none, _ => visitZeroDispatch opts (if opts.zeroNil then e else t)
  | .vPtr e (some w), ctx => visit D opts (if opts.zeroNil then e else t) w ctx
  | .vInt i, _ => (sleBytes 8 i, none)
  | .vInt8 i, _ => (sleBytes 1 i, none)
  | .vInt16 i, _ => (sleBytes 2 i, none)
  | .vInt32 i, _ => (sleBytes 4 i, none)
  | .vInt64 i, _ => (sleBytes 8 i, none)
  | .vUint n, _ => (uleBytes 8 n, none)
  | .vUint8 n, _ => (uleBytes 1 n, none)
  | .vUint16 n, _ => (uleBytes 2 n, none)
  | .vUint32 n, _ => (uleBytes 4 n, none)
  | .vUint64 n, _ => (uleBytes 8 n, none)
  | .vBool b, _ => (sleBytes 1 (if b then 1 else 0), none)
  | .vString s, _ => (strBytes s, none)
  | .vSlice l, ctx =>
    if setFlag ctx then visitSetLoop D opts l [] else visitList D opts l
  | .vMap entries, _ => visitMapLoop D opts entries [] []
  | .vStruct name fields, _ =>
    match visitFields D opts name fields with
    | (b, e) => (strBytes name ++ b, e)
  | .vFunc, _ => ([], some (.unknownKind "func"))

/-- The in-order element walk shared by arrays and non-set slices
(hashstructure.go lines 204–212 and 418–424): visit each element with a nil
context, aborting on the first error. -/
def visitList (D : List Nat → List Nat) (opts : HashOptions) :
    List GoVal → List Nat × Option Err
  | [] => ([], none)
  | x :: rest =>
    match visit D opts .tInt x none with
    | (b, some e) => (b, some e)
    | (b, none) =>
      match visitList D opts rest with
      | (b2, e2) => (b ++ b2, e2)

/-- The entry loop of `(*walker) visitMap` (hashstructure.go lines 234–287)
with the accumulated key- and value-hash lists.  Each key and value is
digested by a fresh walker (`hashValue`, inlined: a fresh stream, finalised
by `D`); an error aborts the map visit before anything is written to the
enclosing digest.  When the loop completes, both hash lists are sorted
byte-lexicographically and written, keys first (lines 273–284).  The
`IncludableMap` probe of lines 235–259 is skipped: no modelled type
implements the capability. -/
def visitMapLoop (D : List Nat → List Nat) (opts : HashOptions) :
    List (GoVal × GoVal) → List (List Nat) → List (List Nat) → List Nat × Option Err
  | [], kHs, vHs => (joinBytes (sortHashes kHs) ++ joinBytes (sortHashes vHs), none)
  | (k, v) :: rest, kHs, vHs =>
    match visit D opts .tInt k none with
    | (_, some e) => ([], some e)
    | (kb, none) =>
      match visit D opts .tInt v none with
      | (_, some e) => ([], some e)
      | (vb, none) => visitMapLoop D opts rest (kHs ++ [D kb]) (vHs ++ [D vb])

/-- The set branch of `(*walker) visitSlice` (hashstructure.go
lines 425–444), faithful to the inverted error check of lines 432–436:
each element is digested by a fresh walker; when that FAILS the (partial)
digest is appended to `hashes` and the loop continues, and when it
SUCCEEDS the function returns the nil error immediately, writing nothing.
Only if every element fails does the loop complete, sort `hashes`, and
write each one via `fmt.Fprintf(w.h, "%d", h)` (lines 438–443). -/
def visitSetLoop (D : List Nat → List Nat) (opts : HashOptions) :
    List GoVal → List (List Nat) → List Nat × Option Err
  | [], hashes =>
    (joinBytes ((sortHashes hashes).map (fun h => strBytes (goFmtBytes h))), none)
  | x :: rest, hashes =>
    match visit D opts .tInt x none with
    | (b, some _) => visitSetLoop D opts rest (hashes ++ [D b])
    | (_, none) => ([], none)

/-- The field loop of `(*walker) visitStruct` (hashstructure.go
lines 337–404): `fieldStep` applied, in declaration order, to each field's
visit under a context carrying the `"set"` flag (line 383–386) and the
enclosing struct/field names (lines 393–397). -/
def visitFields (D : List Nat → List Nat) (opts : HashOptions) (sname : String) :
    List (String × Tags × GoVal) → List Nat × Option Err
  | [] => ([], none)
  | (fname, ftags, fval) :: rest =>
    fieldStep opts fname ftags (isZero fval)
      (visit D opts .tInt fval
        (some ⟨if tagGet (effTagName opts) ftags = "set" then visitFlagSet else 0,
          sname, fname⟩))
      (visitFields D opts sname rest)

end

/-- The entry `hashValue` (hashstructure.go lines 102–117): a fresh walker over a
fresh digest; returns `(w.h.Sum(nil), err)` — the finalised digest is
returned even when the traversal errored. -/
def hashValue (D : List Nat → List Nat) (opts : HashOptions) (v : GoVal) :
    List Nat × Option Err :=
  match visit D opts .tInt v none with
  | (b, e) => (D b, e)

/-- The zero `Format` value `formatInvalid`. -/
def formatInvalid : Nat := 0

/-- The supported format `FormatMD5`. -/
def FormatMD5 : Nat := 1

/-- The sentinel `formatMax`. -/
def formatMax : Nat := 2

/-- The public entry point `Hash` (hashstructure.go lines 88–100): reject a format outside the
open interval `(formatInvalid, formatMax)` with `(nil, ErrFormat)` before
any traversal; default nil options; then delegate to `hashValue`.  The
digest component is `none` exactly when Go returns a nil byte slice. -/
def Hash (D : List Nat → List Nat) (v : GoVal) (format : Nat)
    (opts : Option HashOptions) : Option (List Nat) × Option Err :=
  if format ≤ formatInvalid ∨ formatMax ≤ format then (none, some .errFormat)
  else
    match hashValue D (opts.getD {}) v with
    | (b, e) => (some b, e)

/-! ## Basic lemmas about the embedding -/

theorem bytesLe_total (a b : List Nat) : bytesLe a b = true ∨ bytesLe b a = true := by
  induction a generalizing b with
  | nil => exact Or.inl rfl
  | cons x xs ih =>
    cases b with
    | nil => exact Or.inr rfl
    | cons y ys =>
      rcases Nat.lt_trichotomy x y with h | h | h
      · left; simp [bytesLe, h]
      · subst h
        rcases ih ys with h' | h' <;> simp [bytesLe, h']
      · right; simp [bytesLe, h]

theorem bytesLe_trans {a b c : List Nat} (h1 : bytesLe a b = true)
    (h2 : bytesLe b c = true) : bytesLe a c = true := by
  induction a generalizing b c with
  | nil => rfl
  | cons x xs ih =>
    cases b with
    | nil => simp [bytesLe] at h1
    | cons y ys =>
      cases c with
      | nil => simp [bytesLe] at h2
      | cons z zs =>
        simp only [bytesLe] at h1 h2 ⊢
        split_ifs at h1 h2 ⊢ with hxy hyx hyz hzy hxz hzx
        all_goals first
          | rfl
          | omega
          | (exact ih h1 h2)

theorem bytesLe_antisymm {a b : List Nat} (h1 : bytesLe a b = true)
    (h2 : bytesLe b a = true) : a = b := by
  induction a generalizing b with
  | nil =>
    cases b with
    | nil => rfl
    | cons y ys => simp [bytesLe] at h2
  | cons x xs ih =>
    cases b with
    | nil => simp [bytesLe] at h1
    | cons y ys =>
      simp only [bytesLe] at h1 h2
      split_ifs at h1 h2 with hxy hyx
      · omega
      · have : x = y := by omega
        subst this
        rw [ih h1 h2]

instance : IsTotal (List Nat) bytesLeProp := ⟨bytesLe_total⟩

instance : IsTrans (List Nat) bytesLeProp := ⟨fun _ _ _ => bytesLe_trans⟩

instance : IsAntisymm (List Nat) bytesLeProp := ⟨fun _ _ => bytesLe_antisymm⟩

/-- Sorting depends only on the multiset of hashes. -/
theorem sortHashes_perm {l₁ l₂ : List (List Nat)} (h : l₁.Perm l₂) :
    sortHashes l₁ = sortHashes l₂ :=
  List.eq_of_perm_of_sorted
    ((List.perm_insertionSort _ _).trans (h.trans (List.perm_insertionSort _ _).symm))
    (List.sorted_insertionSort _ _) (List.sorted_insertionSort _ _)

theorem visitZeroFlds_cons (opts : HashOptions) (sname fname : String)
    (ftags : Tags) (fty : GoTy) (rest : List (String × Tags × GoTy)) :
    visitZeroFlds opts sname ((fname, ftags, fty) :: rest) =
      fieldStep opts fname ftags true (zeroFieldInner opts fty)
        (visitZeroFlds opts sname rest) := by
  cases fty <;> rfl


mutual

/-- The zero value of a type is zero. -/
theorem isZero_zeroVal : ∀ ty : GoTy, isZero (zeroVal ty) = true
  | .tInt | .tInt8 | .tInt16 | .tInt32 | .tInt64 => rfl
  | .tUint | .tUint8 | .tUint16 | .tUint32 | .tUint64 => rfl
  | .tBool | .tString | .tPtr _ | .tSlice _ | .tMap _ _ => rfl
  | .tStruct _ fs => by
    simp only [zeroVal, isZero]
    exact isZeroFields_zeroFields fs

/-- The zero fields of a struct type are all zero. -/
theorem isZeroFields_zeroFields : ∀ fs, isZeroFields (zeroFields fs) = true
  | [] => rfl
  | (_, _, ty) :: rest => by
    simp only [zeroFields, isZeroFields, Bool.and_eq_true]
    exact ⟨isZero_zeroVal ty, isZeroFields_zeroFields rest⟩

end

/-- Agreement: `visit` on the zero value of a type agrees with `visitZeroDispatch`,
and the field walk of a zero struct value agrees with `visitZeroFlds`:
the type-level specialisation used at the nil-substitution point computes
the ordinary traversal of the substituted zero value.  Proved by strong
induction on the type size `n`. -/
theorem zero_agree (D : List Nat → List Nat) (opts : HashOptions) :
    ∀ n : Nat,
      (∀ ty : GoTy, (∀ u, ty ≠ .tPtr u) → tySize ty ≤ n →
        ∀ (t0 : GoTy) (ctx : Option VCtx),
          visit D opts t0 (zeroVal ty) ctx = visitZeroDispatch opts ty) ∧
      (∀ fs, tyFieldsSize fs ≤ n → ∀ sn,
          visitFields D opts sn (zeroFields fs) = visitZeroFlds opts sn fs) := by
  intro n
  induction n using Nat.strong_induction_on with
  | _ n ih =>
    constructor
    · intro ty hty hsz t0 ctx
      match ty with
      | .tInt | .tInt8 | .tInt16 | .tInt32 | .tInt64 => rfl
      | .tUint | .tUint8 | .tUint16 | .tUint32 | .tUint64 => rfl
      | .tBool | .tString => rfl
      | .tPtr u => exact absurd rfl (hty u)
      | .tSlice _ =>
        cases hs : setFlag ctx <;>
          simp [zeroVal, visit, hs, visitSetLoop, visitList, sortHashes,
            List.insertionSort, joinBytes, visitZeroDispatch]
      | .tMap _ _ =>
        simp [zeroVal, visit, visitMapLoop, sortHashes, List.insertionSort,
          joinBytes, visitZeroDispatch]
      | .tStruct nm fs =>
        have hlt : tyFieldsSize fs < n := by
          simp only [tySize] at hsz; omega
        simp only [zeroVal, visit, visitZeroDispatch]
        rw [(ih (tyFieldsSize fs) hlt).2 fs (Nat.le_refl _) nm]
    · intro fs hsz sn
      match fs with
      | [] => rfl
      | (fname, ftags, fty) :: rest =>
        have hszs : 1 + tySize fty + tyFieldsSize rest ≤ n := by
          simpa [tyFieldsSize] using hsz
        have hrest : tyFieldsSize rest < n := by omega
        have hfty : tySize fty < n := by omega
        have ihr := (ih (tyFieldsSize rest) hrest).2 rest (Nat.le_refl _) sn
        have hvz : visit D opts .tInt (zeroVal fty)
            (some ⟨if tagGet (effTagName opts) ftags = "set" then visitFlagSet else 0,
              sn, fname⟩) = zeroFieldInner opts fty := by
          have ihv := (ih (tySize fty) hfty).1 fty
          cases fty with
          | tPtr u =>
            cases hz : opts.zeroNil <;>
              simp [zeroVal, visit, hz, zeroFieldInner, visitZeroDispatch]
          | tInt => exact ihv (by intro u h; cases h) (Nat.le_refl _) _ _
          | tInt8 => exact ihv (by intro u h; cases h) (Nat.le_refl _) _ _
          | tInt16 => exact ihv (by intro u h; cases h) (Nat.le_refl _) _ _
          | tInt32 => exact ihv (by intro u h; cases h) (Nat.le_refl _) _ _
          | tInt64 => exact ihv (by intro u h; cases h) (Nat.le_refl _) _ _
          | tUint => exact ihv (by intro u h; cases h) (Nat.le_refl _) _ _
          | tUint8 => exact ihv (by intro u h; cases h) (Nat.le_refl _) _ _
          | tUint16 => exact ihv (by intro u h; cases h) (Nat.le_refl _) _ _
          | tUint32 => exact ihv (by intro u h; cases h) (Nat.le_refl _) _ _
          | tUint64 => exact ihv (by intro u h; cases h) (Nat.le_refl _) _ _
          | tBool => exact ihv (by intro u h; cases h) (Nat.le_refl _) _ _
          | tString => exact ihv (by intro u h; cases h) (Nat.le_refl _) _ _
          | tSlice e => exact ihv (by intro u h; cases h) (Nat.le_refl _) _ _
          | tMap a b => exact ihv (by intro u h; cases h) (Nat.le_refl _) _ _
          | tStruct nm gs => exact ihv (by intro u h; cases h) (Nat.le_refl _) _ _
        simp only [zeroFields, visitFields, visitZeroFlds_cons]
        rw [hvz, isZero_zeroVal fty, ihr]

/-- Agreement: `visit` on the zero value of a non-pointer type is exactly
`visitZeroDispatch` of the type, for every starting type `t0` and context. -/
theorem visit_zeroVal (D : List Nat → List Nat) (opts : HashOptions) (ty : GoTy)
    (h : ∀ u, ty ≠ .tPtr u) (t0 : GoTy) (ctx : Option VCtx) :
    visit D opts t0 (zeroVal ty) ctx = visitZeroDispatch opts ty :=
  (zero_agree D opts (tySize ty)).1 ty h (Nat.le_refl _) t0 ctx

/-- The field walk of a zero struct value agrees with the type-level field
walk `visitZeroFlds`. -/
theorem visitFields_zeroFields (D : List Nat → List Nat) (opts : HashOptions)
    (sname : String) (fs : List (String × Tags × GoTy)) :
    visitFields D opts sname (zeroFields fs) = visitZeroFlds opts sname fs :=
  (zero_agree D opts (tyFieldsSize fs)).2 fs (Nat.le_refl _) sname

/-- Components of `hashValue`. -/
theorem hashValue_eq (D : List Nat → List Nat) (opts : HashOptions) (v : GoVal) :
    hashValue D opts v =
      (D (visit D opts .tInt v none).1, (visit D opts .tInt v none).2) := by
  unfold hashValue
  rcases visit D opts .tInt v none with ⟨b, e⟩
  rfl

/-- Components of `Hash` at the valid format `FormatMD5`. -/
theorem Hash_md5_eq (D : List Nat → List Nat) (v : GoVal) (opts : Option HashOptions) :
    Hash D v FormatMD5 opts =
      (some (hashValue D (opts.getD {}) v).1, (hashValue D (opts.getD {}) v).2) := by
  rcases h : hashValue D (opts.getD {}) v with ⟨b, e⟩
  simp [Hash, FormatMD5, formatInvalid, formatMax, h]

/-- A field whose consulted tag is `"ignore"` or `"-"` is skipped whatever
its value, zero-ness, or visit result. -/
theorem fieldStep_skip (opts : HashOptions) (fname : String) (ftags : Tags)
    (z : Bool) (inner restRes : List Nat × Option Err)
    (hTag : tagGet (effTagName opts) ftags = "ignore" ∨
      tagGet (effTagName opts) ftags = "-") :
    fieldStep opts fname ftags z inner restRes = restRes := by
  unfold fieldStep
  by_cases h1 : fname = "_"
  · simp [h1]
  · by_cases h2 : exportedName fname
    · simp [h1, h2, hTag]
    · simp [h1, h2]

/-- When `IgnoreZeroValue` is off, `fieldStep` depends only on the inner
visit result, not on the zero-ness flag. -/
theorem fieldStep_congr_inner (opts : HashOptions) (fname : String) (ftags : Tags)
    {z1 z2 : Bool} {inner1 inner2 : List Nat × Option Err}
    (restRes : List Nat × Option Err) (hiz : opts.ignoreZeroValue = false)
    (hInner : inner1 = inner2) :
    fieldStep opts fname ftags z1 inner1 restRes =
      fieldStep opts fname ftags z2 inner2 restRes := by
  unfold fieldStep
  rw [hInner, hiz]
  simp

/-- Replacing the tail field list by one with the same walk result leaves
the walk of a longer field list unchanged. -/
theorem visitFields_append_congr (D : List Nat → List Nat) (opts : HashOptions)
    (sname : String) (bs : List (String × Tags × GoVal))
    {L1 L2 : List (String × Tags × GoVal)}
    (h : visitFields D opts sname L1 = visitFields D opts sname L2) :
    visitFields D opts sname (bs ++ L1) = visitFields D opts sname (bs ++ L2) := by
  induction bs with
  | nil => simpa using h
  | cons b bs ih =>
    obtain ⟨fn, ftags, fv⟩ := b
    simp only [List.cons_append, visitFields, List.append_eq]
    rw [ih]

/-- When every entry's key and value digest cleanly, the map loop appends
each entry's key digest and value digest to the accumulators, sorts the
two lists independently, and writes all key hashes then all value hashes,
succeeding. -/
theorem visitMapLoop_ok (D : List Nat → List Nat) (opts : HashOptions)
    (l : List (GoVal × GoVal)) :
    ∀ kHs vHs : List (List Nat),
      (∀ p ∈ l, (hashValue D opts p.1).2 = none ∧ (hashValue D opts p.2).2 = none) →
      visitMapLoop D opts l kHs vHs =
        (joinBytes (sortHashes (kHs ++ l.map fun p => (hashValue D opts p.1).1)) ++
          joinBytes (sortHashes (vHs ++ l.map fun p => (hashValue D opts p.2).1)),
          none) := by
  induction l with
  | nil => intro kHs vHs _; simp [visitMapLoop]
  | cons q rest ih =>
    intro kHs vHs hall
    obtain ⟨k, v⟩ := q
    have hk := (hall (k, v) (List.mem_cons_self _ _)).1
    have hv := (hall (k, v) (List.mem_cons_self _ _)).2
    rw [hashValue_eq] at hk hv
    rcases e1 : visit D opts .tInt k none with ⟨kb, ke⟩
    rcases e2 : visit D opts .tInt v none with ⟨vb, ve⟩
    rw [e1] at hk
    rw [e2] at hv
    dsimp only at hk hv
    subst hk
    subst hv
    simp only [visitMapLoop, e1, e2]
    rw [ih _ _ (fun p hp => hall p (List.mem_cons_of_mem _ hp))]
    simp [hashValue_eq, e1, e2, List.append_assoc]

/-- When some entry's key or value digest fails, the map loop aborts with
that error before writing anything to the enclosing digest. -/
theorem visitMapLoop_err (D : List Nat → List Nat) (opts : HashOptions)
    (l : List (GoVal × GoVal)) :
    ∀ kHs vHs : List (List Nat),
      (∃ p ∈ l, (hashValue D opts p.1).2 ≠ none ∨ (hashValue D opts p.2).2 ≠ none) →
      (visitMapLoop D opts l kHs vHs).1 = [] := by
  induction l with
  | nil =>
    rintro kHs vHs ⟨p, hp, _⟩
    cases hp
  | cons q rest ih =>
    intro kHs vHs hex
    obtain ⟨k, v⟩ := q
    rcases e1 : visit D opts .tInt k none with ⟨kb, ke⟩
    cases ke with
    | some e => simp [visitMapLoop, e1]
    | none =>
      rcases e2 : visit D opts .tInt v none with ⟨vb, ve⟩
      cases ve with
      | some e => simp [visitMapLoop, e1, e2]
      | none =>
        simp only [visitMapLoop, e1, e2]
        apply ih
        rcases hex with ⟨p, hp, hbad⟩
        rcases List.mem_cons.mp hp with heq | hmem
        · exfalso
          subst heq
          rcases hbad with hbad | hbad
          · rw [hashValue_eq, e1] at hbad
            exact hbad rfl
          · rw [hashValue_eq, e2] at hbad
            exact hbad rfl
        · exact ⟨p, hmem, hbad⟩

/-! ## The claims -/

/-- C1: for every keyed collection `m` (a map value, given by its entry
list in iteration order) and every `m'` holding exactly the same entries in
any other iteration order, `Hash(m, FormatMD5, opts)` returns the same
digest as `Hash(m', FormatMD5, opts)`, for every options value (and every
digest finalisation `D`). -/
theorem c1_map_iteration_order (D : List Nat → List Nat)
    (opts : Option HashOptions) {l l' : List (GoVal × GoVal)}
    (hp : l.Perm l') :
    (Hash D (.vMap l) FormatMD5 opts).1 = (Hash D (.vMap l') FormatMD5 opts).1 := by
  rw [Hash_md5_eq, Hash_md5_eq]
  simp only [hashValue_eq]
  have hvm : ∀ m : List (GoVal × GoVal),
      visit D (opts.getD {}) .tInt (.vMap m) none =
        visitMapLoop D (opts.getD {}) m [] [] := fun m => rfl
  rw [hvm, hvm]
  by_cases hall : ∀ p ∈ l,
      (hashValue D (opts.getD {}) p.1).2 = none ∧
        (hashValue D (opts.getD {}) p.2).2 = none
  · have hall' : ∀ p ∈ l',
        (hashValue D (opts.getD {}) p.1).2 = none ∧
          (hashValue D (opts.getD {}) p.2).2 = none :=
      fun p hpm => hall p (hp.symm.subset hpm)
    rw [visitMapLoop_ok D _ l [] [] hall, visitMapLoop_ok D _ l' [] [] hall']
    simp only [List.nil_append]
    rw [sortHashes_perm (hp.map _), sortHashes_perm (hp.map _)]
  · have hex : ∃ p ∈ l, (hashValue D (opts.getD {}) p.1).2 ≠ none ∨
        (hashValue D (opts.getD {}) p.2).2 ≠ none := by
      push_neg at hall
      obtain ⟨p, hpl, hnab⟩ := hall
      by_cases hA : (hashValue D (opts.getD {}) p.1).2 = none
      · exact ⟨p, hpl, Or.inr (hnab hA)⟩
      · exact ⟨p, hpl, Or.inl hA⟩
    have hex' : ∃ p ∈ l', (hashValue D (opts.getD {}) p.1).2 ≠ none ∨
        (hashValue D (opts.getD {}) p.2).2 ≠ none := by
      obtain ⟨p, hpl, hb⟩ := hex
      exact ⟨p, hp.subset hpl, hb⟩
    rw [visitMapLoop_err D _ l [] [] hex, visitMapLoop_err D _ l' [] [] hex']

/-- Witness for C1 at a concrete two-entry map and its transposition. -/
theorem c1_map_iteration_order_witness :
    (([(GoVal.vString "a", GoVal.vInt 1), (GoVal.vString "b", GoVal.vInt 2)] :
        List (GoVal × GoVal)).Perm
      [(GoVal.vString "b", GoVal.vInt 2), (GoVal.vString "a", GoVal.vInt 1)]) ∧
    (Hash id (.vMap [(.vString "a", .vInt 1), (.vString "b", .vInt 2)])
        FormatMD5 none).1 =
      (Hash id (.vMap [(.vString "b", .vInt 2), (.vString "a", .vInt 1)])
        FormatMD5 none).1 :=
  ⟨List.Perm.swap _ _ _, c1_map_iteration_order id none (List.Perm.swap _ _ _)⟩

/-- Existence of a failing key or value among a map's entries is existence
over the key list or over the value list. -/
theorem exists_entry_iff (l : List (GoVal × GoVal)) (P Q : GoVal → Prop) :
    (∃ p ∈ l, P p.1 ∨ Q p.2) ↔
      (∃ a ∈ l.map Prod.fst, P a) ∨ (∃ b ∈ l.map Prod.snd, Q b) := by
  simp only [List.mem_map]
  constructor
  · rintro ⟨p, hp, h | h⟩
    · exact Or.inl ⟨p.1, ⟨p, hp, rfl⟩, h⟩
    · exact Or.inr ⟨p.2, ⟨p, hp, rfl⟩, h⟩
  · rintro (⟨a, ⟨p, hp, rfl⟩, h⟩ | ⟨b, ⟨p, hp, rfl⟩, h⟩)
    · exact ⟨p, hp, Or.inl h⟩
    · exact ⟨p, hp, Or.inr h⟩

/-- C10: because the per-entry key hashes and value hashes are sorted and
written as two independent lists, the digest of a map depends only on the
multiset of keys and the multiset of values, not on which key maps to
which value. -/
theorem c10_map_association_free (D : List Nat → List Nat)
    (opts : Option HashOptions) {l l' : List (GoVal × GoVal)}
    (hk : (l.map Prod.fst).Perm (l'.map Prod.fst))
    (hv : (l.map Prod.snd).Perm (l'.map Prod.snd)) :
    (Hash D (.vMap l) FormatMD5 opts).1 = (Hash D (.vMap l') FormatMD5 opts).1 := by
  rw [Hash_md5_eq, Hash_md5_eq]
  simp only [hashValue_eq]
  have hvm : ∀ m : List (GoVal × GoVal),
      visit D (opts.getD {}) .tInt (.vMap m) none =
        visitMapLoop D (opts.getD {}) m [] [] := fun m => rfl
  rw [hvm, hvm]
  by_cases hall : ∀ p ∈ l,
      (hashValue D (opts.getD {}) p.1).2 = none ∧
        (hashValue D (opts.getD {}) p.2).2 = none
  · have hall' : ∀ p ∈ l',
        (hashValue D (opts.getD {}) p.1).2 = none ∧
          (hashValue D (opts.getD {}) p.2).2 = none := by
      intro p hpm
      constructor
      · obtain ⟨q, hq, hq1⟩ :=
          List.mem_map.mp (hk.symm.subset (List.mem_map_of_mem Prod.fst hpm))
        rw [← hq1]
        exact (hall q hq).1
      · obtain ⟨q, hq, hq2⟩ :=
          List.mem_map.mp (hv.symm.subset (List.mem_map_of_mem Prod.snd hpm))
        rw [← hq2]
        exact (hall q hq).2
    rw [visitMapLoop_ok D _ l [] [] hall, visitMapLoop_ok D _ l' [] [] hall']
    have hmk : ∀ m : List (GoVal × GoVal),
        (m.map fun p => (hashValue D (opts.getD {}) p.1).1) =
          (m.map Prod.fst).map fun k => (hashValue D (opts.getD {}) k).1 :=
      fun m => by rw [List.map_map]; rfl
    have hmv : ∀ m : List (GoVal × GoVal),
        (m.map fun p => (hashValue D (opts.getD {}) p.2).1) =
          (m.map Prod.snd).map fun k => (hashValue D (opts.getD {}) k).1 :=
      fun m => by rw [List.map_map]; rfl
    simp only [List.nil_append, hmk, hmv]
    rw [sortHashes_perm (hk.map _), sortHashes_perm (hv.map _)]
  · have hex : ∃ p ∈ l, (hashValue D (opts.getD {}) p.1).2 ≠ none ∨
        (hashValue D (opts.getD {}) p.2).2 ≠ none := by
      push_neg at hall
      obtain ⟨p, hpl, hnab⟩ := hall
      by_cases hA : (hashValue D (opts.getD {}) p.1).2 = none
      · exact ⟨p, hpl, Or.inr (hnab hA)⟩
      · exact ⟨p, hpl, Or.inl hA⟩
    have hex' : ∃ p ∈ l', (hashValue D (opts.getD {}) p.1).2 ≠ none ∨
        (hashValue D (opts.getD {}) p.2).2 ≠ none := by
      rcases (exists_entry_iff l
          (fun a => (hashValue D (opts.getD {}) a).2 ≠ none)
          (fun b => (hashValue D (opts.getD {}) b).2 ≠ none)).mp hex with h | h
      · obtain ⟨a, ha, hPa⟩ := h
        exact (exists_entry_iff l'
          (fun a => (hashValue D (opts.getD {}) a).2 ≠ none)
          (fun b => (hashValue D (opts.getD {}) b).2 ≠ none)).mpr
          (Or.inl ⟨a, hk.subset ha, hPa⟩)
      · obtain ⟨b, hb, hQb⟩ := h
        exact (exists_entry_iff l'
          (fun a => (hashValue D (opts.getD {}) a).2 ≠ none)
          (fun b => (hashValue D (opts.getD {}) b).2 ≠ none)).mpr
          (Or.inr ⟨b, hv.subset hb, hQb⟩)
    rw [visitMapLoop_err D _ l [] [] hex, visitMapLoop_err D _ l' [] [] hex']

/-- Witness for C10: two maps with the same keys and the same values but
swapped associations digest identically. -/
theorem c10_map_association_free_witness :
    ((([(GoVal.vString "a", GoVal.vInt 1), (GoVal.vString "b", GoVal.vInt 2)] :
        List (GoVal × GoVal)).map Prod.fst).Perm
      (([(GoVal.vString "a", GoVal.vInt 2), (GoVal.vString "b", GoVal.vInt 1)] :
        List (GoVal × GoVal)).map Prod.fst)) ∧
    ((([(GoVal.vString "a", GoVal.vInt 1), (GoVal.vString "b", GoVal.vInt 2)] :
        List (GoVal × GoVal)).map Prod.snd).Perm
      (([(GoVal.vString "a", GoVal.vInt 2), (GoVal.vString "b", GoVal.vInt 1)] :
        List (GoVal × GoVal)).map Prod.snd)) ∧
    (Hash id (.vMap [(.vString "a", .vInt 1), (.vString "b", .vInt 2)])
        FormatMD5 none).1 =
      (Hash id (.vMap [(.vString "a", .vInt 2), (.vString "b", .vInt 1)])
        FormatMD5 none).1 :=
  ⟨List.Perm.refl _, List.Perm.swap _ _ _,
    c10_map_association_free id none (List.Perm.refl _) (List.Perm.swap _ _ _)⟩

/-- Components of `visit` on a struct value: the type name bytes, then the
field walk. -/
theorem visit_struct_eq (D : List Nat → List Nat) (opts : HashOptions)
    (t0 : GoTy) (sn : String) (L : List (String × Tags × GoVal))
    (ctx : Option VCtx) :
    visit D opts t0 (.vStruct sn L) ctx =
      (strBytes sn ++ (visitFields D opts sn L).1, (visitFields D opts sn L).2) := by
  show (match visitFields D opts sn L with
    | (b, e) => (strBytes sn ++ b, e)) = _
  rcases visitFields D opts sn L with ⟨b, e⟩
  rfl

/-- C6: for every value and every format outside the supported set (the
zero value `formatInvalid`, or any value at or above `formatMax`), `Hash`
returns the invalid-format error with a nil digest.  The equation holds
uniformly in `v` — including values whose traversal would fail — because
the format check precedes any traversal. -/
theorem c6_invalid_format (D : List Nat → List Nat) (v : GoVal)
    (format : Nat) (opts : Option HashOptions)
    (h : format ≤ formatInvalid ∨ formatMax ≤ format) :
    Hash D v format opts = (none, some .errFormat) := by
  unfold Hash
  rw [if_pos h]

/-- Witness for C6 at the zero format and a value whose traversal would
error. -/
theorem c6_invalid_format_witness :
    ((0 : Nat) ≤ formatInvalid ∨ formatMax ≤ 0) ∧
      Hash id .vFunc 0 none = (none, some .errFormat) :=
  ⟨Or.inl (Nat.le_refl 0),
    c6_invalid_format id .vFunc 0 none (Or.inl (Nat.le_refl 0))⟩

/-- C3, counterexample: the claim says `int8(5)` and `int64(5)` hash
identically because all signed integers are widened to 64 bits; in the
code only the unsized `int` is widened, `int8` is binary-written as one
byte while `int64` is eight, so the streams (hence the digests, exhibited
at `D = id`) differ. -/
theorem c3_widening_cex :
    Hash id (.vInt8 5) FormatMD5 none ≠ Hash id (.vInt64 5) FormatMD5 none := by
  decide

/-- C3, amended: only the platform-sized `int` and `uint` kinds are
widened (`int → int64`, `uint → uint64`) and `bool` is encoded as a
one-byte `int8`; explicitly sized integers keep their declared width.
Hence `int(n)` hashes like `int64(n)` and `uint(n)` like `uint64(n)`,
but e.g. `int8(5)` and `int64(5)` differ. -/
theorem c3_widening_amended (D : List Nat → List Nat)
    (opts : Option HashOptions) (i : Int) (n : Nat) (b : Bool) :
    Hash D (.vInt i) FormatMD5 opts = Hash D (.vInt64 i) FormatMD5 opts ∧
    Hash D (.vUint n) FormatMD5 opts = Hash D (.vUint64 n) FormatMD5 opts ∧
    Hash D (.vBool b) FormatMD5 opts =
      Hash D (.vInt8 (if b then 1 else 0)) FormatMD5 opts :=
  ⟨rfl, rfl, rfl⟩

/-- C4, counterexample: a struct whose second field is a func value makes
the traversal fail, yet `Hash` returns the finalised digest of the bytes
accumulated before the error (type name, first field, second field's
name) alongside the error — not a nil digest. -/
theorem c4_error_digest_cex :
    Hash id (.vStruct "S" [("A", [], .vInt 3), ("B", [], .vFunc)]) FormatMD5 none =
      (some (strBytes "S" ++ strBytes "A" ++ sleBytes 8 3 ++ strBytes "B"),
        some (.unknownKind "func")) ∧
    (Hash id (.vStruct "S" [("A", [], .vInt 3), ("B", [], .vFunc)])
        FormatMD5 none).1 ≠ none := by
  exact ⟨by decide, by decide⟩

/-- C4, amended: with a valid format, the digest component `Hash` returns
is always `some` — the finalisation of the stream accumulated by the
traversal (`hashValue` returns `w.h.Sum(nil)` together with the error), so
an error comes with the partial digest, never with a nil one. -/
theorem c4_error_digest_amended (D : List Nat → List Nat) (v : GoVal)
    (opts : Option HashOptions) :
    (Hash D v FormatMD5 opts).1 =
      some (D (visit D (opts.getD {}) .tInt v none).1) := by
  rw [Hash_md5_eq, hashValue_eq]

/-- C5: an error while hashing an element of a set-flagged slice is
swallowed, not surfaced: the failing element's partial digest is appended
to the hash list (inverted branch, hashstructure.go lines 432–436), the
loop completes, and `Hash` returns no error — here the whole call succeeds
with the `"[]"` rendering of the empty partial digest written. -/
theorem c5_set_error_swallowed :
    Hash id (.vStruct "S" [("A", [("hash", "set")], .vSlice [.vFunc])])
        FormatMD5 none =
      (some (strBytes "S" ++ strBytes "A" ++ strBytes "[]"), none) := by
  decide

/-- C2: the set branch of `visitSlice` never writes the sorted element
hashes.  With elements that hash cleanly it returns after the first
element having written nothing — so a set-tagged `[5, 42]` and a
set-tagged `[999]` produce the same digest, namely the one of the type and
field names alone.  And the `SlicesAsSets` option is never consulted: an
untagged slice still hashes in element order even with the option set. -/
theorem c2_set_branch_broken :
    (Hash id (.vStruct "S" [("A", [("hash", "set")], .vSlice [.vInt 5, .vInt 42])])
        FormatMD5 none =
      (some (strBytes "S" ++ strBytes "A"), none)) ∧
    (Hash id (.vStruct "S" [("A", [("hash", "set")], .vSlice [.vInt 5, .vInt 42])])
        FormatMD5 none =
      Hash id (.vStruct "S" [("A", [("hash", "set")], .vSlice [.vInt 999])])
        FormatMD5 none) ∧
    (Hash id (.vStruct "S" [("A", [], .vSlice [.vInt 5, .vInt 42])]) FormatMD5
        (some {slicesAsSets := true}) ≠
      Hash id (.vStruct "S" [("A", [], .vSlice [.vInt 42, .vInt 5])]) FormatMD5
        (some {slicesAsSets := true})) :=
  ⟨by decide, by decide, by decide⟩

/-- With `ZeroNil` off, the unwrap loop never updates `t`, so a nil
pointer/interface chain of any depth is replaced by the zero value of the
initial `t` and traversed as such. -/
theorem visit_nilChain (D : List Nat → List Nat) (opts : HashOptions)
    (hz : opts.zeroNil = false) :
    ∀ v : GoVal, isNilChain v = true → ∀ (t : GoTy) (ctx : Option VCtx),
      visit D opts t v ctx = visitZeroDispatch opts t
  | .vPtr _ none, _, t, ctx => by simp [visit, hz]
  | .vPtr _ (some w), h, t, ctx => by
    have hw : isNilChain w = true := by simpa [isNilChain] using h
    have := visit_nilChain D opts hz w hw t ctx
    simpa [visit, hz] using this
  | .vInterface none, _, _, _ => rfl
  | .vInterface (some w), h, t, ctx => by
    have hw : isNilChain w = true := by simpa [isNilChain] using h
    have := visit_nilChain D opts hz w hw t ctx
    simpa [visit] using this
  | .vInt _, h, _, _ => by simp [isNilChain] at h
  | .vInt8 _, h, _, _ => by simp [isNilChain] at h
  | .vInt16 _, h, _, _ => by simp [isNilChain] at h
  | .vInt32 _, h, _, _ => by simp [isNilChain] at h
  | .vInt64 _, h, _, _ => by simp [isNilChain] at h
  | .vUint _, h, _, _ => by simp [isNilChain] at h
  | .vUint8 _, h, _, _ => by simp [isNilChain] at h
  | .vUint16 _, h, _, _ => by simp [isNilChain] at h
  | .vUint32 _, h, _, _ => by simp [isNilChain] at h
  | .vUint64 _, h, _, _ => by simp [isNilChain] at h
  | .vBool _, h, _, _ => by simp [isNilChain] at h
  | .vString _, h, _, _ => by simp [isNilChain] at h
  | .vSlice _, h, _, _ => by simp [isNilChain] at h
  | .vMap _, h, _, _ => by simp [isNilChain] at h
  | .vStruct _ _, h, _, _ => by simp [isNilChain] at h
  | .vFunc, h, _, _ => by simp [isNilChain] at h

/-- C9: with `ZeroNil` disabled, every nil pointer and nil interface, at
any depth of indirection, is substituted by the zero value of `int` and
written as the eight-byte little-endian encoding of 0; consequently it
hashes exactly like an `int` holding 0. -/
theorem c9_nil_as_int_zero (D : List Nat → List Nat) (opts : HashOptions)
    (v : GoVal) (ctx : Option VCtx) (h1 : opts.zeroNil = false)
    (h2 : isNilChain v = true) :
    visit D opts .tInt v ctx = (List.replicate 8 0, none) ∧
      Hash D v FormatMD5 (some opts) = Hash D (.vInt 0) FormatMD5 (some opts) := by
  have hv := visit_nilChain D opts h1 v h2
  constructor
  · rw [hv .tInt ctx]
    show (sleBytes 8 0, none) = _
    decide
  · rw [Hash_md5_eq, Hash_md5_eq]
    simp only [hashValue_eq, Option.getD_some]
    rw [hv .tInt none]
    rfl

/-- Witness for C9: a non-nil pointer to a nil interface (a two-level
chain, with a pointed-to type other than `int`) hashes as eight zero
bytes, like `int(0)`. -/
theorem c9_nil_as_int_zero_witness :
    (({} : HashOptions).zeroNil = false) ∧
    (isNilChain (.vPtr (.tSlice .tInt) (some (.vInterface none))) = true) ∧
    (visit id {} .tInt (.vPtr (.tSlice .tInt) (some (.vInterface none))) none =
        (List.replicate 8 0, none) ∧
      Hash id (.vPtr (.tSlice .tInt) (some (.vInterface none))) FormatMD5
          (some {}) =
        Hash id (.vInt 0) FormatMD5 (some {})) :=
  ⟨rfl, rfl, c9_nil_as_int_zero id {} _ none rfl rfl⟩

/-- C7, counterexample: with `ZeroNil` on, a struct field of type `**int`
that is nil hashes DIFFERENTLY from the same field pointing at the zero
value of its pointed-to type (`*int`, whose zero is a nil `*int`): the nil
field is substituted by `reflect.Zero(*int)`, a value of pointer kind the
dispatch has no case for, so the traversal errors after the names, while
the pointing field unwraps twice and hashes `int64(0)`. -/
theorem c7_zero_nil_cex :
    Hash id (.vStruct "S" [("F", [], .vPtr (.tPtr .tInt) none)]) FormatMD5
        (some {zeroNil := true}) ≠
      Hash id (.vStruct "S" [("F", [], .vPtr (.tPtr .tInt)
        (some (.vPtr .tInt none)))]) FormatMD5 (some {zeroNil := true}) := by
  decide

/-- C7, amended: with `ZeroNil` enabled and `IgnoreZeroValue` disabled,
for every struct field of pointer type whose pointed-to type `T` is not
itself a pointer type, the digest with the field nil equals the digest
with the field pointing at the zero value of `T`.  (`IgnoreZeroValue` must
be off because it skips the nil field but not the pointing one; a
pointer-typed `T` fails as in the counterexample.) -/
theorem c7_zero_nil_amended (D : List Nat → List Nat) (o : HashOptions)
    (sn fn : String) (ftags : Tags) (T : GoTy)
    (bs as : List (String × Tags × GoVal))
    (hz : o.zeroNil = true) (hiz : o.ignoreZeroValue = false)
    (hT : ∀ u, T ≠ .tPtr u) :
    Hash D (.vStruct sn (bs ++ (fn, ftags, .vPtr T none) :: as)) FormatMD5
        (some o) =
      Hash D (.vStruct sn (bs ++ (fn, ftags, .vPtr T (some (zeroVal T))) :: as))
        FormatMD5 (some o) := by
  rw [Hash_md5_eq, Hash_md5_eq]
  simp only [hashValue_eq, Option.getD_some]
  have hfields :
      visitFields D o sn ((fn, ftags, .vPtr T none) :: as) =
        visitFields D o sn ((fn, ftags, .vPtr T (some (zeroVal T))) :: as) := by
    simp only [visitFields]
    refine fieldStep_congr_inner o fn ftags _ hiz ?_
    have h1 : ∀ ctx, visit D o .tInt (.vPtr T none) ctx = visitZeroDispatch o T := by
      intro ctx
      simp [visit, hz]
    have h2 : ∀ ctx, visit D o .tInt (.vPtr T (some (zeroVal T))) ctx =
        visitZeroDispatch o T := by
      intro ctx
      have : visit D o .tInt (.vPtr T (some (zeroVal T))) ctx =
          visit D o T (zeroVal T) ctx := by
        simp [visit, hz]
      rw [this]
      exact visit_zeroVal D o T hT T ctx
    rw [h1, h2]
  have hcong := visitFields_append_congr D o sn bs hfields
  rw [visit_struct_eq, visit_struct_eq, hcong]

/-- Witness for C7 (amended), with the pointed-to type a two-field struct
like the golden test's `structB`. -/
theorem c7_zero_nil_amended_witness :
    (({zeroNil := true} : HashOptions).zeroNil = true) ∧
    (({zeroNil := true} : HashOptions).ignoreZeroValue = false) ∧
    (∀ u, (GoTy.tStruct "B" [("A", [], .tInt), ("B", [], .tBool)]) ≠ .tPtr u) ∧
    Hash id
        (.vStruct "S"
          [("F", [], .vPtr (.tStruct "B" [("A", [], .tInt), ("B", [], .tBool)])
            none)]) FormatMD5 (some {zeroNil := true}) =
      Hash id
        (.vStruct "S"
          [("F", [], .vPtr (.tStruct "B" [("A", [], .tInt), ("B", [], .tBool)])
            (some (zeroVal (.tStruct "B" [("A", [], .tInt), ("B", [], .tBool)]))))])
        FormatMD5 (some {zeroNil := true}) :=
  ⟨rfl, rfl, fun _ h => GoTy.noConfusion h,
    c7_zero_nil_amended id ({zeroNil := true} : HashOptions) "S" "F" [] _ [] []
      rfl rfl (fun _ h => GoTy.noConfusion h)⟩

/-- C8: a field whose consulted tag is `"ignore"` or `"-"` never
influences the digest: two struct values differing only in that field hash
identically, for every options value (the tag is looked up under the
options' effective tag name). -/
theorem c8_ignored_field (D : List Nat → List Nat) (opts : Option HashOptions)
    (sn fn : String) (ftags : Tags) (v1 v2 : GoVal)
    (bs as : List (String × Tags × GoVal))
    (hTag : tagGet (effTagName (opts.getD {})) ftags = "ignore" ∨
      tagGet (effTagName (opts.getD {})) ftags = "-") :
    Hash D (.vStruct sn (bs ++ (fn, ftags, v1) :: as)) FormatMD5 opts =
      Hash D (.vStruct sn (bs ++ (fn, ftags, v2) :: as)) FormatMD5 opts := by
  rw [Hash_md5_eq, Hash_md5_eq]
  simp only [hashValue_eq]
  have hfields : visitFields D (opts.getD {}) sn ((fn, ftags, v1) :: as) =
      visitFields D (opts.getD {}) sn ((fn, ftags, v2) :: as) := by
    simp only [visitFields]
    rw [fieldStep_skip _ _ _ _ _ _ hTag, fieldStep_skip _ _ _ _ _ _ hTag]
  have hcong := visitFields_append_congr D (opts.getD {}) sn bs hfields
  rw [visit_struct_eq, visit_struct_eq, hcong]

/-- Witness for C8 at the golden test's shape: a `hash:"ignore"` UUID field
changed between two values, other fields equal. -/
theorem c8_ignored_field_witness :
    (tagGet (effTagName ((none : Option HashOptions).getD {}))
        [("hash", "ignore")] = "ignore" ∨
      tagGet (effTagName ((none : Option HashOptions).getD {}))
        [("hash", "ignore")] = "-") ∧
    Hash id
        (.vStruct "S" [("UUID", [("hash", "ignore")], .vString "Foobar"),
          ("AString", [], .vString "hello")]) FormatMD5 none =
      Hash id
        (.vStruct "S" [("UUID", [("hash", "ignore")], .vString "DIFFERENT_THAN_ABOVE"),
          ("AString", [], .vString "hello")]) FormatMD5 none :=
  ⟨Or.inl rfl,
    c8_ignored_field id none "S" "UUID" [("hash", "ignore")]
      (.vString "Foobar") (.vString "DIFFERENT_THAN_ABOVE") []
      [("AString", [], .vString "hello")] (Or.inl rfl)⟩

end Hashstructure
